import Mathlib

set_option autoImplicit false

namespace SpamGuard

/- Constants from the top of src/moderation/spam_protection.py. -/

def MUTE_ROLE_ID : Int := 982702037517090836

def STAFF_CHANNEL_ID : Int := 876780367296745493

def WHITELISTED_ROLE_ID : Int := 952560403970416722

def WHITELISTED_CATEGORY_ID : Int := 876780338599305246

/-- One tracked message: the `(timestamp, channel_id, content)` tuples stored in
`self.user_messages[user_id]`. -/
structure ActivityRecord where
  timestamp : Int
  channelId : Int
  content : String
  deriving DecidableEq, Repr

/-- Channel ids in first-occurrence order, matching the key insertion order of the
Python dict `channel_counts` (and of the `channels` dict): walk the list, keeping
each id the first time it is seen. -/
def dedupFirstAux (seen : List Int) : List Int → List Int
  | [] => []
  | c :: rest =>
      if c ∈ seen then dedupFirstAux seen rest
      else c :: dedupFirstAux (seen ++ [c]) rest

def dedupFirst (l : List Int) : List Int := dedupFirstAux [] l

/-- `channel_counts[c]` over a message window. -/
def channelCount (msgs : List ActivityRecord) (c : Int) : Nat :=
  (msgs.filter (fun r => decide (r.channelId = c))).length

/-- The `recent_messages` list of `check_spam_patterns`: entries whose timestamp is
at or after `now - 5` seconds. -/
def recentWindow (msgs : List ActivityRecord) (now : Int) : List ActivityRecord :=
  msgs.filter (fun r => decide (now - 5 ≤ r.timestamp))

/-- The spam-data dict returned by `check_spam_patterns`, as a tagged variant:
`same_channel` carries the channel, its count, and that channel's messages;
`multiple_channels` carries the total count, the distinct-channel count, the
channel ids in first-occurrence order, and the window. -/
inductive SpamData where
  | sameChannel (channelId : Int) (count : Nat) (messages : List ActivityRecord)
  | multipleChannels (count : Nat) (channelCnt : Nat) (channels : List Int)
      (messages : List ActivityRecord)
  deriving DecidableEq, Repr

/-- `SpamProtection.check_spam_patterns` (lines 215-262): guard on fewer than 2
tracked entries, take the 5-second window, guard again, look for a channel with
10 or more messages (dict iteration = first-occurrence order), otherwise check
for 10 or more distinct channels. -/
def checkSpamPatterns (msgs : List ActivityRecord) (now : Int) : Option SpamData :=
  if msgs.length < 2 then none
  else if (recentWindow msgs now).length < 2 then none
  else
    match (dedupFirst ((recentWindow msgs now).map (fun r => r.channelId))).find?
        (fun c => decide (10 ≤ channelCount (recentWindow msgs now) c)) with
    | some c =>
        some (SpamData.sameChannel c (channelCount (recentWindow msgs now) c)
          ((recentWindow msgs now).filter (fun r => decide (r.channelId = c))))
    | none =>
        if 10 ≤ (dedupFirst ((recentWindow msgs now).map (fun r => r.channelId))).length then
          some (SpamData.multipleChannels (recentWindow msgs now).length
            (dedupFirst ((recentWindow msgs now).map (fun r => r.channelId))).length
            (dedupFirst ((recentWindow msgs now).map (fun r => r.channelId)))
            (recentWindow msgs now))
        else none

/-- A row of the `spam_actions` table (message_id is the primary key: the id of
the staff alert message). -/
structure SpamActionRow where
  messageId : Int
  userId : Int
  guildId : Int
  createdAt : Int
  expiresAt : Int
  spamData : String
  deriving DecidableEq, Repr

/-- A row of the `mutes` table as written by this module:
`(user_id, guild_id, channel_id, unmute_time)`. -/
structure MuteRow where
  userId : Int
  guildId : Int
  channelId : Int
  unmuteTime : Int
  deriving DecidableEq, Repr

/-- The data of an inbound Discord message that `on_message` inspects.  The
author's current roles are read from the live member state, not stored here. -/
structure Msg where
  authorId : Int
  authorIsBot : Bool
  inGuild : Bool
  guildId : Int
  channelId : Int
  isTextChannel : Bool
  categoryId : Int
  content : String
  timestamp : Int
  deriving DecidableEq, Repr

/-- The whole mutable state of the cog plus the durable tables and the guild's
member-role assignment: `user_messages`, `flagged_users`, the asyncio queue,
`spam_actions`, `mutes`, each member's role list, a count of plain staff-channel
notices, a fresh-id counter for staff alert messages, and the ban list. -/
structure BotState where
  userMessages : List (Int × List ActivityRecord)
  flagged : List Int
  queue : List Msg
  spamActions : List SpamActionRow
  mutes : List MuteRow
  memberRoles : List (Int × List Int)
  staffNotices : Nat
  nextMessageId : Int
  bans : List Int
  muteCalls : Nat
  deriving DecidableEq, Repr

/-- Success/failure of the external Discord collaborators: which entities exist
and which API calls succeed.  A `false` flag models the corresponding call
raising (caught by the code's try/except). -/
structure Env where
  guildExists : Bool
  membersPresent : List Int
  guildRoles : List Int
  staffChannelExists : Bool
  addRolesOk : Bool
  removeRolesOk : Bool
  staffSendOk : Bool
  persistOk : Bool
  banOk : Bool
  deriving DecidableEq, Repr

/-- First-match association lookup (Python dict access). -/
def alookup {β : Type} : List (Int × β) → Int → Option β
  | [], _ => none
  | (k, v) :: rest, k' => if k = k' then some v else alookup rest k'

/-- Replace the value of an existing key in place, or append a new entry
(Python dict assignment preserves insertion order). -/
def aupsert {β : Type} : List (Int × β) → Int → β → List (Int × β)
  | [], k, v => [(k, v)]
  | (k', v') :: rest, k, v =>
      if k' = k then (k, v) :: rest else (k', v') :: aupsert rest k v

def rolesOf (st : BotState) (u : Int) : List Int := (alookup st.memberRoles u).getD []

def logOf (st : BotState) (u : Int) : List ActivityRecord := (alookup st.userMessages u).getD []

/-- `member.add_roles(role)`: a no-op if the member already holds the role. -/
def addRole (st : BotState) (u r : Int) : BotState :=
  let newRoles := if r ∈ rolesOf st u then rolesOf st u else rolesOf st u ++ [r]
  { st with memberRoles := aupsert st.memberRoles u newRoles }

/-- `member.remove_roles(role)`. -/
def removeRole (st : BotState) (u r : Int) : BotState :=
  { st with memberRoles :=
      aupsert st.memberRoles u ((rolesOf st u).filter (fun x => decide (x ≠ r))) }

/-- Modelled from the spec: the `mutes` table is created by the separate mute
command module, which is not among this repository's source files; the spec's
persisted-state layout gives `mute_records` the composite key
`(actor_id, realm_id)`, so `INSERT OR REPLACE INTO mutes` replaces the row with
the same `(user_id, guild_id)` and otherwise appends. -/
def upsertMute (l : List MuteRow) (row : MuteRow) : List MuteRow :=
  if l.any (fun r => decide (r.userId = row.userId ∧ r.guildId = row.guildId)) then
    l.map (fun r =>
      if r.userId = row.userId ∧ r.guildId = row.guildId then row else r)
  else l ++ [row]

/-- The `type` string stored in the `spam_data` column. -/
def spamKind : SpamData → String
  | .sameChannel .. => "same_channel"
  | .multipleChannels .. => "multiple_channels"

/-- `SpamProtection.on_message` (lines 154-181): drop bot and DM messages,
whitelisted-role holders, whitelisted-category text channels, already-muted
members, and already-flagged users; otherwise enqueue the message. -/
def onMessage (env : Env) (st : BotState) (m : Msg) : BotState :=
  if m.authorIsBot ∨ ¬ m.inGuild then st
  else if WHITELISTED_ROLE_ID ∈ env.guildRoles ∧ WHITELISTED_ROLE_ID ∈ rolesOf st m.authorId then st
  else if m.isTextChannel ∧ m.categoryId = WHITELISTED_CATEGORY_ID then st
  else if MUTE_ROLE_ID ∈ env.guildRoles ∧ MUTE_ROLE_ID ∈ rolesOf st m.authorId then st
  else if m.authorId ∈ st.flagged then st
  else { st with queue := st.queue ++ [m] }

/-- `SpamProtection.handle_spam` (lines 264-413): flag the user, apply the mute
role (abort on failure), best-effort DM, post the staff alert, and persist the
pending `spam_actions` row keyed by the alert message id with
`expires_at = now + 12h`.  A failure at any step after the mute only logs. -/
def handleSpam (env : Env) (st : BotState) (u guildId : Int) (d : SpamData) (now : Int) :
    BotState :=
  let st1 := { st with flagged := if u ∈ st.flagged then st.flagged else st.flagged ++ [u] }
  if MUTE_ROLE_ID ∉ env.guildRoles then st1
  else if ¬ env.addRolesOk then st1
  else
    let st2a := addRole st1 u MUTE_ROLE_ID
    let st2 := { st2a with muteCalls := st2a.muteCalls + 1 }
    if ¬ env.staffChannelExists then st2
    else if ¬ env.staffSendOk then st2
    else
      let mid := st2.nextMessageId
      let st3 := { st2 with nextMessageId := mid + 1 }
      if ¬ env.persistOk then st3
      else
        let row : SpamActionRow := ⟨mid, u, guildId, now, now + 43200, spamKind d⟩
        { st3 with spamActions := st3.spamActions ++ [row] }

/-- Appending to a `deque(maxlen=50)`: drop from the left on overflow. -/
def recordAppend (l : List ActivityRecord) (r : ActivityRecord) : List ActivityRecord :=
  if 50 ≤ l.length then l.drop (l.length + 1 - 50) ++ [r] else l ++ [r]

/-- `SpamProtection._process_message` (lines 197-213): append the (truncated)
record to the author's log, then run detection and, on a hit, escalate. -/
def processMessage (env : Env) (st : BotState) (m : Msg) : BotState :=
  let newLog := recordAppend (logOf st m.authorId) ⟨m.timestamp, m.channelId, m.content.take 100⟩
  let st1 := { st with userMessages := aupsert st.userMessages m.authorId newLog }
  match checkSpamPatterns newLog m.timestamp with
  | none => st1
  | some d => handleSpam env st1 m.authorId m.guildId d m.timestamp

/-- Repeated ticks of `process_message_queue`: dequeue and process until the
queue is empty (fuelled by the queue length; processing never enqueues). -/
def drainN (env : Env) : Nat → BotState → BotState
  | 0, st => st
  | n + 1, st =>
      match st.queue with
      | [] => st
      | m :: rest => drainN env n (processMessage env { st with queue := rest } m)

def drainAll (env : Env) (st : BotState) : BotState := drainN env st.queue.length st

/-- Deliver a batch of inbound messages to `on_message` back to back (all pass
the ingest checks before any is processed). -/
def ingestAll (env : Env) (st : BotState) (ms : List Msg) : BotState :=
  ms.foldl (onMessage env) st

/-- Deliver inbound messages one at a time, fully draining the queue after each
(the sequential schedule: each message is processed before the next arrives). -/
def runSequential (env : Env) (st : BotState) (ms : List Msg) : BotState :=
  ms.foldl (fun s m => drainAll env (onMessage env s m)) st

/-- `SpamProtection.apply_default_action` (lines 107-152): bail out if the guild,
member or mute role is missing, or if the member already holds the mute role;
otherwise add the role, write a 1-day `mutes` row, and notify the staff
channel. -/
def applyDefaultAction (env : Env) (now : Int) (st : BotState) (userId guildId : Int) :
    BotState :=
  if ¬ env.guildExists then st
  else if userId ∉ env.membersPresent then st
  else if MUTE_ROLE_ID ∉ env.guildRoles ∨ MUTE_ROLE_ID ∈ rolesOf st userId then st
  else if ¬ env.addRolesOk then st
  else
    let st1a := addRole st userId MUTE_ROLE_ID
    let st1 := { st1a with muteCalls := st1a.muteCalls + 1 }
    let st2 := { st1 with mutes := upsertMute st1.mutes ⟨userId, guildId, STAFF_CHANNEL_ID, now + 86400⟩ }
    if env.staffChannelExists then { st2 with staffNotices := st2.staffNotices + 1 } else st2

/-- `SpamProtection.check_pending_actions` (lines 84-105): select the rows with
`expires_at <= now`, and for each apply the default action and delete the row. -/
def checkPendingActions (env : Env) (now : Int) (st : BotState) : BotState :=
  (st.spamActions.filter (fun a => decide (a.expiresAt ≤ now))).foldl
    (fun s a =>
      let s1 := applyDefaultAction env now s a.userId a.guildId
      { s1 with spamActions := s1.spamActions.filter (fun b => decide (b.messageId ≠ a.messageId)) })
    st

/-- `SpamProtection.cleanup_tracking` (lines 62-82): per user, pop entries older
than `now - 10` seconds from the left, delete the log once empty, then keep only
flagged users that still have a log. -/
def cleanupTracking (now : Int) (st : BotState) : BotState :=
  let swept := st.userMessages.map (fun p => (p.1, p.2.dropWhile (fun r => decide (r.timestamp < now - 10))))
  let um := swept.filter (fun p => ¬ p.2.isEmpty)
  { st with userMessages := um, flagged := st.flagged.filter (fun u => (alookup um u).isSome) }

/-- What a `SpamActionView` button interaction reports back to the reviewer. -/
inductive ActionOutcome where
  | noPermission
  | cancelled
  | muteRemoved
  | notMuted
  | muteKept
  | banned
  | failed
  deriving DecidableEq, Repr

/-- `SpamActionView.remove_mute_button` (lines 436-502): permission check,
confirmation dialog, then — only when the member currently holds the mute
role — remove the role, delete the `mutes` rows, and delete the pending
`spam_actions` row; otherwise report "User is not currently muted." -/
def removeMuteButton (env : Env) (st : BotState) (memberId guildId alertId : Int)
    (hasModPerm confirmed : Bool) : BotState × ActionOutcome :=
  if ¬ hasModPerm then (st, .noPermission)
  else if ¬ confirmed then (st, .cancelled)
  else if MUTE_ROLE_ID ∈ env.guildRoles ∧ MUTE_ROLE_ID ∈ rolesOf st memberId then
    if ¬ env.removeRolesOk then (st, .failed)
    else
      let st1 := removeRole st memberId MUTE_ROLE_ID
      let newMutes := st1.mutes.filter (fun r => decide (¬ (r.userId = memberId ∧ r.guildId = guildId)))
      let st2 := { st1 with mutes := newMutes }
      let newActions := st2.spamActions.filter (fun a => decide (a.messageId ≠ alertId))
      ({ st2 with spamActions := newActions }, .muteRemoved)
  else (st, .notMuted)

/-- `SpamActionView.keep_mute_button` (lines 504-562): permission check,
confirmation dialog, then unconditionally write a 1-day `mutes` row and delete
the pending `spam_actions` row — there is no already-resolved check. -/
def keepMuteButton (st : BotState) (memberId guildId alertId now : Int)
    (hasModPerm confirmed : Bool) : BotState × ActionOutcome :=
  if ¬ hasModPerm then (st, .noPermission)
  else if ¬ confirmed then (st, .cancelled)
  else
    let newMutes := upsertMute st.mutes ⟨memberId, guildId, STAFF_CHANNEL_ID, now + 86400⟩
    let st1 := { st with mutes := newMutes }
    let newActions := st1.spamActions.filter (fun a => decide (a.messageId ≠ alertId))
    ({ st1 with spamActions := newActions }, .muteKept)

/-- `SpamActionView.ban_button` (lines 564-635): ban permission check,
confirmation dialog, best-effort DM, then ban and delete the pending row. -/
def banButton (env : Env) (st : BotState) (memberId guildId alertId : Int)
    (hasBanPerm confirmed : Bool) : BotState × ActionOutcome :=
  if ¬ hasBanPerm then (st, .noPermission)
  else if ¬ confirmed then (st, .cancelled)
  else if ¬ env.banOk then (st, .failed)
  else
    let st1 := { st with bans := st.bans ++ [memberId] }
    let newActions := st1.spamActions.filter (fun a => decide (a.messageId ≠ alertId))
    ({ st1 with spamActions := newActions }, .banned)

/-- The state of a `ConfirmView` secondary confirmation dialog (lines 637-669). -/
structure ConfirmViewState where
  ownerId : Int
  confirmed : Bool
  stopped : Bool
  deriving DecidableEq, Repr

def newConfirmView (u : Int) : ConfirmViewState := ⟨u, false, false⟩

/-- `ConfirmView.confirm_button`: rejected for anyone but the initiating
reviewer; their click sets `confirmed` and stops the view. -/
def confirmButton (v : ConfirmViewState) (interactorId : Int) : ConfirmViewState :=
  if interactorId ≠ v.ownerId then v
  else { v with confirmed := true, stopped := true }

/-- `ConfirmView.cancel_button`: rejected for anyone but the initiating
reviewer; their click leaves `confirmed` false and stops the view. -/
def cancelButton (v : ConfirmViewState) (interactorId : Int) : ConfirmViewState :=
  if interactorId ≠ v.ownerId then v
  else { v with confirmed := false, stopped := true }

/- Concrete inputs used to instantiate the theorems below. -/

def wLog10 : List ActivityRecord := List.replicate 10 ⟨100, 1, ""⟩

def wLog9 : List ActivityRecord := List.replicate 9 ⟨100, 1, ""⟩

def wLog1 : List ActivityRecord := [⟨100, 1, ""⟩]

def wSpread10 : List ActivityRecord := (List.range 10).map (fun i => ⟨100, Int.ofNat i, ""⟩)

def wSpread9 : List ActivityRecord := (List.range 9).map (fun i => ⟨100, Int.ofNat i, ""⟩)

def wBoth : List ActivityRecord :=
  wLog10 ++ (List.range 10).map (fun i => ⟨100, Int.ofNat i + 2, ""⟩)

def emptyState : BotState := ⟨[], [], [], [], [], [], 0, 1000, [], 0⟩

def envAllOk : Env := ⟨true, [7], [MUTE_ROLE_ID], true, true, true, true, true, true⟩

def envNoStaff : Env := ⟨true, [7], [MUTE_ROLE_ID], false, true, true, true, true, true⟩

def dSame : SpamData := .sameChannel 5 10 []

def c1State : BotState :=
  ⟨[], [], [], [⟨1, 7, 1, 0, 50, "same_channel"⟩], [], [(7, [MUTE_ROLE_ID])], 0, 1000, [], 0⟩

def mSpam : Msg := ⟨7, false, true, 1, 5, true, 99, "spam", 100⟩

def c3Run : BotState := drainAll envAllOk (ingestAll envAllOk emptyState (List.replicate 11 mSpam))

def c4State : BotState :=
  ⟨[], [7], [], [⟨1, 7, 1, 0, 50, "same_channel"⟩], [⟨7, 1, STAFF_CHANNEL_ID, 500⟩],
    [(7, [MUTE_ROLE_ID])], 0, 1000, [], 1⟩

def c4AfterLift : BotState := (removeMuteButton envAllOk c4State 7 1 1 true true).1

def c8State : BotState := ⟨[(7, [⟨93, 1, ""⟩])], [], [], [], [], [], 0, 1000, [], 0⟩

/-- The `spam_actions` rows belonging to one actor. -/
def actionsFor (st : BotState) (u : Int) : List SpamActionRow :=
  st.spamActions.filter (fun a => decide (a.userId = u))

/-- Invariant of the sequential schedule: the queue is drained, the actor is
flagged exactly when they have a pending review row, and they never have more
than one. -/
def SeqInv (st : BotState) (u : Int) : Prop :=
  st.queue = [] ∧ (u ∈ st.flagged ↔ actionsFor st u ≠ []) ∧ (actionsFor st u).length ≤ 1

def mBot : Msg := ⟨7, true, true, 1, 5, true, 99, "hi", 100⟩

theorem mem_dedupFirstAux (l : List Int) :
    ∀ (seen : List Int) (c : Int), c ∈ dedupFirstAux seen l ↔ (c ∈ l ∧ c ∉ seen) := by
  induction l with
  | nil => simp [dedupFirstAux]
  | cons a rest ih =>
      intro seen c
      by_cases ha : a ∈ seen
      · rw [dedupFirstAux, if_pos ha, ih]
        by_cases hc : c = a
        · subst hc; simp [ha]
        · simp [hc]
      · rw [dedupFirstAux, if_neg ha]
        by_cases hc : c = a
        · subst hc; simp [ha]
        · simp only [List.mem_cons, ih, List.mem_append, List.mem_singleton, hc]
          tauto

theorem mem_dedupFirst (l : List Int) (c : Int) : c ∈ dedupFirst l ↔ c ∈ l := by
  rw [dedupFirst, mem_dedupFirstAux]
  simp

theorem dedupFirstAux_nodup_self (l : List Int) :
    ∀ seen : List Int, l.Nodup → (∀ x ∈ l, x ∉ seen) → dedupFirstAux seen l = l := by
  induction l with
  | nil => intro seen _ _; rfl
  | cons a rest ih =>
      intro seen hnd hdisj
      have ha : a ∉ seen := hdisj a (List.mem_cons_self a rest)
      rw [dedupFirstAux, if_neg ha]
      congr 1
      apply ih
      · exact (List.nodup_cons.mp hnd).2
      · intro x hx
        simp only [List.mem_append, List.mem_singleton]
        rintro (hs | hxa)
        · exact hdisj x (List.mem_cons_of_mem a hx) hs
        · exact (List.nodup_cons.mp hnd).1 (hxa ▸ hx)

theorem dedupFirst_nodup_self (l : List Int) (h : l.Nodup) : dedupFirst l = l :=
  dedupFirstAux_nodup_self l [] h (by simp)

theorem dedupFirstAux_replicate_mem (m : Nat) (c : Int) :
    ∀ seen : List Int, c ∈ seen → dedupFirstAux seen (List.replicate m c) = [] := by
  induction m with
  | zero => intro seen _; rfl
  | succ k ih =>
      intro seen h
      rw [List.replicate_succ, dedupFirstAux, if_pos h]
      exact ih seen h

theorem dedupFirst_replicate (n : Nat) (c : Int) (h : 0 < n) :
    dedupFirst (List.replicate n c) = [c] := by
  cases n with
  | zero => omega
  | succ m =>
      rw [dedupFirst, List.replicate_succ, dedupFirstAux, if_neg (by simp)]
      rw [dedupFirstAux_replicate_mem m c _ (by simp)]

theorem channelCount_le_length (w : List ActivityRecord) (c : Int) :
    channelCount w c ≤ w.length :=
  List.length_filter_le _ _

theorem checkSpamPatterns_same_of_burst (msgs : List ActivityRecord) (now : Int) (c : Int)
    (h : 10 ≤ channelCount (recentWindow msgs now) c) :
    ∃ c', 10 ≤ channelCount (recentWindow msgs now) c' ∧
      checkSpamPatterns msgs now = some (SpamData.sameChannel c'
        (channelCount (recentWindow msgs now) c')
        ((recentWindow msgs now).filter (fun r => decide (r.channelId = c')))) := by
  have hwlen : 10 ≤ (recentWindow msgs now).length :=
    le_trans h (channelCount_le_length _ _)
  have hmlen : (recentWindow msgs now).length ≤ msgs.length := List.length_filter_le _ _
  have hcmem : c ∈ dedupFirst ((recentWindow msgs now).map (fun r => r.channelId)) := by
    rw [mem_dedupFirst]
    have hpos : 0 < ((recentWindow msgs now).filter (fun r => decide (r.channelId = c))).length := by
      have h' := h
      unfold channelCount at h'
      omega
    obtain ⟨r, hr⟩ := List.exists_mem_of_length_pos hpos
    have hr' := List.mem_filter.mp hr
    exact List.mem_map.mpr ⟨r, hr'.1, by simpa using hr'.2⟩
  have hfind : ((dedupFirst ((recentWindow msgs now).map (fun r => r.channelId))).find?
      (fun x => decide (10 ≤ channelCount (recentWindow msgs now) x))).isSome := by
    rw [List.find?_isSome]
    exact ⟨c, hcmem, by simpa using h⟩
  obtain ⟨c', hc'⟩ := Option.isSome_iff_exists.mp hfind
  have hpred : 10 ≤ channelCount (recentWindow msgs now) c' := by
    simpa using List.find?_some hc'
  refine ⟨c', hpred, ?_⟩
  unfold checkSpamPatterns
  rw [if_neg (by omega), if_neg (by omega), hc']

/-- Claim C5: an actor whose 5-second window holds at least 10 records in one
channel is reported as a same-channel burst whose count is exactly that
channel's record count in the window; a window of 9 records in a single channel
yields no detection, and so does a window with fewer than 2 entries. -/
theorem C5_same_channel_burst_exactness :
    (∀ (msgs : List ActivityRecord) (now c : Int),
        10 ≤ channelCount (recentWindow msgs now) c →
        ∃ c', 10 ≤ channelCount (recentWindow msgs now) c' ∧
          checkSpamPatterns msgs now = some (SpamData.sameChannel c'
            (channelCount (recentWindow msgs now) c')
            ((recentWindow msgs now).filter (fun r => decide (r.channelId = c')))))
    ∧ (∀ (msgs : List ActivityRecord) (now c : Int),
        (recentWindow msgs now).map (fun r => r.channelId) = List.replicate 9 c →
        checkSpamPatterns msgs now = none)
    ∧ (∀ (msgs : List ActivityRecord) (now : Int),
        (recentWindow msgs now).length < 2 →
        checkSpamPatterns msgs now = none) := by
  refine ⟨checkSpamPatterns_same_of_burst, ?_, ?_⟩
  · intro msgs now c hmap
    have hwlen : (recentWindow msgs now).length = 9 := by
      have := congrArg List.length hmap
      simpa using this
    have hmlen : (recentWindow msgs now).length ≤ msgs.length := List.length_filter_le _ _
    have hded : dedupFirst ((recentWindow msgs now).map (fun r => r.channelId)) = [c] := by
      rw [hmap]
      exact dedupFirst_replicate 9 c (by norm_num)
    have hall : ∀ r ∈ recentWindow msgs now, r.channelId = c := by
      intro r hr
      have hmem : r.channelId ∈ (recentWindow msgs now).map (fun r => r.channelId) :=
        List.mem_map.mpr ⟨r, hr, rfl⟩
      rw [hmap] at hmem
      exact List.eq_of_mem_replicate hmem
    have hcount : channelCount (recentWindow msgs now) c = 9 := by
      unfold channelCount
      rw [List.filter_eq_self.mpr (fun r hr => by simpa using hall r hr), hwlen]
    have hfind : ((dedupFirst ((recentWindow msgs now).map (fun r => r.channelId))).find?
        (fun x => decide (10 ≤ channelCount (recentWindow msgs now) x))) = none := by
      rw [hded, List.find?_eq_none]
      intro x hx
      have hxc : x = c := by simpa using hx
      subst hxc
      simp [hcount]
    unfold checkSpamPatterns
    rw [if_neg (by omega), if_neg (by omega), hfind, hded]
    simp
  · intro msgs now h
    by_cases h2 : msgs.length < 2
    · unfold checkSpamPatterns
      rw [if_pos h2]
    · unfold checkSpamPatterns
      rw [if_neg h2, if_pos h]

theorem channelCount_le_one_of_nodup (w : List ActivityRecord)
    (h : (w.map (fun r => r.channelId)).Nodup) (c : Int) :
    channelCount w c ≤ 1 := by
  induction w with
  | nil => simp [channelCount]
  | cons a rest ih =>
      simp only [List.map_cons, List.nodup_cons] at h
      unfold channelCount at *
      rw [List.filter_cons]
      by_cases hc : a.channelId = c
      · rw [if_pos (by simpa using hc)]
        have hnil : rest.filter (fun r => decide (r.channelId = c)) = [] := by
          rw [List.filter_eq_nil_iff]
          intro r hr
          simp only [decide_eq_true_eq]
          intro hrc
          exact h.1 (List.mem_map.mpr ⟨r, hr, by rw [hrc, hc]⟩)
        simp [hnil]
      · rw [if_neg (by simpa using hc)]
        exact ih h.2

theorem find?_burst_none_of_nodup (msgs : List ActivityRecord) (now : Int)
    (h : ((recentWindow msgs now).map (fun r => r.channelId)).Nodup) :
    ((dedupFirst ((recentWindow msgs now).map (fun r => r.channelId))).find?
      (fun c => decide (10 ≤ channelCount (recentWindow msgs now) c))) = none := by
  rw [List.find?_eq_none]
  intro x _
  have hle := channelCount_le_one_of_nodup _ h x
  simp only [decide_eq_true_eq]
  omega

/-- Claim C6: a 5-second window of exactly 10 records in 10 pairwise-distinct
channels is reported as a multi-channel burst with distinct-channel count 10
(the code's hard-coded threshold); 9 distinct single-record channels yield no
detection. -/
theorem C6_multi_channel_spread_exactness :
    (∀ (msgs : List ActivityRecord) (now : Int),
        (recentWindow msgs now).length = 10 →
        ((recentWindow msgs now).map (fun r => r.channelId)).Nodup →
        checkSpamPatterns msgs now = some (SpamData.multipleChannels 10 10
          ((recentWindow msgs now).map (fun r => r.channelId)) (recentWindow msgs now)))
    ∧ (∀ (msgs : List ActivityRecord) (now : Int),
        (recentWindow msgs now).length = 9 →
        ((recentWindow msgs now).map (fun r => r.channelId)).Nodup →
        checkSpamPatterns msgs now = none) := by
  constructor
  · intro msgs now hlen hnd
    have hmlen : (recentWindow msgs now).length ≤ msgs.length := List.length_filter_le _ _
    have hded : dedupFirst ((recentWindow msgs now).map (fun r => r.channelId))
        = (recentWindow msgs now).map (fun r => r.channelId) := dedupFirst_nodup_self _ hnd
    have hdlen : (dedupFirst ((recentWindow msgs now).map (fun r => r.channelId))).length = 10 := by
      rw [hded]
      simpa using hlen
    unfold checkSpamPatterns
    rw [if_neg (by omega), if_neg (by omega), find?_burst_none_of_nodup msgs now hnd]
    rw [if_pos (by omega), hded]
    simp [hlen, hdlen, hded]
  · intro msgs now hlen hnd
    have hmlen : (recentWindow msgs now).length ≤ msgs.length := List.length_filter_le _ _
    have hded : dedupFirst ((recentWindow msgs now).map (fun r => r.channelId))
        = (recentWindow msgs now).map (fun r => r.channelId) := dedupFirst_nodup_self _ hnd
    have hdlen : (dedupFirst ((recentWindow msgs now).map (fun r => r.channelId))).length = 9 := by
      rw [hded]
      simpa using hlen
    unfold checkSpamPatterns
    rw [if_neg (by omega), if_neg (by omega), find?_burst_none_of_nodup msgs now hnd]
    rw [if_neg (by omega)]

/-- Claim C7: whenever both the same-channel threshold and the distinct-channel
threshold are met by the same window, the result is a same-channel burst, never
a multi-channel one (the same-channel check runs first). -/
theorem C7_same_channel_wins_ties :
    ∀ (msgs : List ActivityRecord) (now c : Int),
      10 ≤ channelCount (recentWindow msgs now) c →
      10 ≤ (dedupFirst ((recentWindow msgs now).map (fun r => r.channelId))).length →
      ∃ c' cnt sample, checkSpamPatterns msgs now = some (SpamData.sameChannel c' cnt sample) := by
  intro msgs now c hburst _
  obtain ⟨c', _, heq⟩ := checkSpamPatterns_same_of_burst msgs now c hburst
  exact ⟨c', _, _, heq⟩

/-- Witness for C5 at concrete inputs: 10 same-channel records fire with count
10, 9 records in one channel yield none, and a single-entry window yields
none. -/
theorem C5_witness :
    (10 ≤ channelCount (recentWindow wLog10 100) 1) ∧
    (∃ c', 10 ≤ channelCount (recentWindow wLog10 100) c' ∧
        checkSpamPatterns wLog10 100 = some (SpamData.sameChannel c'
          (channelCount (recentWindow wLog10 100) c')
          ((recentWindow wLog10 100).filter (fun r => decide (r.channelId = c'))))) ∧
    checkSpamPatterns wLog10 100 = some (SpamData.sameChannel 1 10 wLog10) ∧
    ((recentWindow wLog9 100).map (fun r => r.channelId) = List.replicate 9 1) ∧
    checkSpamPatterns wLog9 100 = none ∧
    ((recentWindow wLog1 100).length < 2) ∧
    checkSpamPatterns wLog1 100 = none :=
  ⟨by decide, C5_same_channel_burst_exactness.1 wLog10 100 1 (by decide), by decide,
    by decide, C5_same_channel_burst_exactness.2.1 wLog9 100 1 (by decide),
    by decide, C5_same_channel_burst_exactness.2.2 wLog1 100 (by decide)⟩

/-- Witness for C6 at concrete inputs: 10 distinct channels fire with
distinct-channel count 10; 9 distinct channels yield none. -/
theorem C6_witness :
    ((recentWindow wSpread10 100).length = 10) ∧
    (((recentWindow wSpread10 100).map (fun r => r.channelId)).Nodup) ∧
    checkSpamPatterns wSpread10 100 = some (SpamData.multipleChannels 10 10
      ((recentWindow wSpread10 100).map (fun r => r.channelId)) (recentWindow wSpread10 100)) ∧
    ((recentWindow wSpread9 100).length = 9) ∧
    checkSpamPatterns wSpread9 100 = none :=
  ⟨by decide, by decide,
    C6_multi_channel_spread_exactness.1 wSpread10 100 (by decide) (by decide),
    by decide, C6_multi_channel_spread_exactness.2 wSpread9 100 (by decide) (by decide)⟩

/-- Witness for C7: a window holding 10 records in channel 1 plus 10 more
single-record channels meets both thresholds and is reported as a same-channel
burst. -/
theorem C7_witness :
    (10 ≤ channelCount (recentWindow wBoth 100) 1) ∧
    (10 ≤ (dedupFirst ((recentWindow wBoth 100).map (fun r => r.channelId))).length) ∧
    (∃ c' cnt sample, checkSpamPatterns wBoth 100 = some (SpamData.sameChannel c' cnt sample)) :=
  ⟨by decide, by decide, C7_same_channel_wins_ties wBoth 100 1 (by decide) (by decide)⟩

/-- Claim C9: in the secondary confirmation dialog, clicks from anyone other
than the initiating reviewer change nothing; the owner's Confirm sets
`confirmed` and stops the view, the owner's Cancel stops it unconfirmed. -/
theorem C9_confirm_dialog_owner_only :
    (∀ (v : ConfirmViewState) (i : Int), i ≠ v.ownerId →
        confirmButton v i = v ∧ cancelButton v i = v)
    ∧ (∀ v : ConfirmViewState,
        (confirmButton v v.ownerId).confirmed = true ∧ (confirmButton v v.ownerId).stopped = true)
    ∧ (∀ v : ConfirmViewState,
        (cancelButton v v.ownerId).confirmed = false ∧ (cancelButton v v.ownerId).stopped = true) := by
  refine ⟨?_, ?_, ?_⟩
  · intro v i h
    constructor
    · simp [confirmButton, h]
    · simp [cancelButton, h]
  · intro v
    constructor <;> simp [confirmButton]
  · intro v
    constructor <;> simp [cancelButton]

/-- Witness for C9: a stranger's click on either button leaves the dialog
unchanged; the owner's clicks resolve it. -/
theorem C9_witness :
    ((6 : Int) ≠ (newConfirmView 5).ownerId) ∧
    confirmButton (newConfirmView 5) 6 = newConfirmView 5 ∧
    cancelButton (newConfirmView 5) 6 = newConfirmView 5 ∧
    (confirmButton (newConfirmView 5) (newConfirmView 5).ownerId).confirmed = true ∧
    (cancelButton (newConfirmView 5) (newConfirmView 5).ownerId).confirmed = false :=
  ⟨by decide,
    (C9_confirm_dialog_owner_only.1 (newConfirmView 5) 6 (by decide)).1,
    (C9_confirm_dialog_owner_only.1 (newConfirmView 5) 6 (by decide)).2,
    (C9_confirm_dialog_owner_only.2.1 (newConfirmView 5)).1,
    (C9_confirm_dialog_owner_only.2.2 (newConfirmView 5)).1⟩

/-- Claim C10: a message from a bot, from outside a guild, from a holder of the
whitelisted or mute role, from a whitelisted-category channel, or from an
already-flagged author is dropped by `on_message` without being enqueued, so it
is never recorded and never reaches detection (the state is unchanged).  The
hypothesis `hroles` states the Discord fact that a member's roles are roles of
the guild. -/
theorem C10_ingest_filters (env : Env) (st : BotState) (m : Msg)
    (hroles : ∀ r ∈ rolesOf st m.authorId, r ∈ env.guildRoles)
    (hskip : m.authorIsBot = true ∨ m.inGuild = false ∨
      WHITELISTED_ROLE_ID ∈ rolesOf st m.authorId ∨
      (m.isTextChannel = true ∧ m.categoryId = WHITELISTED_CATEGORY_ID) ∨
      MUTE_ROLE_ID ∈ rolesOf st m.authorId ∨
      m.authorId ∈ st.flagged) :
    onMessage env st m = st := by
  unfold onMessage
  split_ifs with h1 h2 h3 h4 h5
  · rfl
  · rfl
  · rfl
  · rfl
  · rfl
  · exfalso
    rcases hskip with h | h | h | h | h | h
    · exact h1 (Or.inl (by simp [h]))
    · exact h1 (Or.inr (by simp [h]))
    · exact h2 ⟨hroles _ h, h⟩
    · exact h3 ⟨by simp [h.1], h.2⟩
    · exact h4 ⟨hroles _ h, h⟩
    · exact h5 h

/-- Witness for C10: a bot-authored message leaves the whole state unchanged. -/
theorem C10_witness :
    (mBot.authorIsBot = true) ∧ onMessage envAllOk emptyState mBot = emptyState :=
  ⟨by decide, C10_ingest_filters envAllOk emptyState mBot (by decide) (Or.inl (by decide))⟩

/-- Claim C1 (code bug, evaluated at the failing input): a pending review row
expired at time 50 is reconciled at time 100 while the actor still holds the
mute role — the normal state after containment.  The row is deleted and a second
run is a no-op, but `apply_default_action` returns early because the member is
already muted: no `mutes` row is written, no containment call is made, and the
staff channel is never notified, contradicting the claimed (and self-documented)
default of extending the mute to now + 1 day and announcing it. -/
theorem C1_default_action_skipped_for_muted_member :
    (c1State.spamActions = [⟨1, 7, 1, 0, 50, "same_channel"⟩] ∧
      MUTE_ROLE_ID ∈ rolesOf c1State 7) ∧
    (checkPendingActions envAllOk 100 c1State).spamActions = [] ∧
    (checkPendingActions envAllOk 100 c1State).mutes = [] ∧
    (checkPendingActions envAllOk 100 c1State).staffNotices = 0 ∧
    (checkPendingActions envAllOk 100 c1State).muteCalls = 0 ∧
    checkPendingActions envAllOk 100 (checkPendingActions envAllOk 100 c1State)
      = checkPendingActions envAllOk 100 c1State := by
  exact ⟨⟨by decide, by decide⟩, by decide, by decide, by decide, by decide, by decide⟩

theorem alookup_aupsert {β : Type} (l : List (Int × β)) (k : Int) (v : β) :
    alookup (aupsert l k v) k = some v := by
  induction l with
  | nil => simp [aupsert, alookup]
  | cons p rest ih =>
      obtain ⟨k', v'⟩ := p
      by_cases h : k' = k
      · subst h
        simp [aupsert, alookup]
      · simp [aupsert, alookup, h, ih]

theorem rolesOf_addRole_self (st : BotState) (u r : Int) :
    rolesOf (addRole st u r)
        u = (if r ∈ rolesOf st u then rolesOf st u else rolesOf st u ++ [r]) := by
  unfold addRole rolesOf
  simp [alookup_aupsert]

theorem mem_rolesOf_addRole (st : BotState) (u r : Int) : r ∈ rolesOf (addRole st u r) u := by
  rw [rolesOf_addRole_self]
  split_ifs with h
  · exact h
  · simp

/-- Claim C2 (amended): when the mute succeeded but the staff alert cannot be
posted or the pending row cannot be persisted, `handle_spam` only logs: the
actor ends up holding the mute role while `spam_actions` is unchanged — no
retry, no rollback. -/
theorem C2_failure_leaves_mute_without_record (env : Env) (st : BotState)
    (u g : Int) (d : SpamData) (now : Int)
    (hrole : MUTE_ROLE_ID ∈ env.guildRoles) (hadd : env.addRolesOk = true)
    (hfail : env.staffChannelExists = false ∨ env.staffSendOk = false ∨ env.persistOk = false) :
    MUTE_ROLE_ID ∈ rolesOf (handleSpam env st u g d now) u ∧
    (handleSpam env st u g d now).spamActions = st.spamActions := by
  unfold handleSpam
  rw [if_neg (by simpa using hrole), if_neg (by simp [hadd])]
  rcases hfail with hf | hf | hf
  · rw [if_pos (by simp [hf])]
    exact ⟨mem_rolesOf_addRole _ u MUTE_ROLE_ID, rfl⟩
  · by_cases hc : env.staffChannelExists
    · rw [if_neg (by simp [hc]), if_pos (by simp [hf])]
      exact ⟨mem_rolesOf_addRole _ u MUTE_ROLE_ID, rfl⟩
    · rw [if_pos (by simp [hc])]
      exact ⟨mem_rolesOf_addRole _ u MUTE_ROLE_ID, rfl⟩
  · by_cases hc : env.staffChannelExists
    · by_cases hs : env.staffSendOk
      · rw [if_neg (by simp [hc]), if_neg (by simp [hs]), if_pos (by simp [hf])]
        exact ⟨mem_rolesOf_addRole _ u MUTE_ROLE_ID, rfl⟩
      · rw [if_neg (by simp [hc]), if_pos (by simp [hs])]
        exact ⟨mem_rolesOf_addRole _ u MUTE_ROLE_ID, rfl⟩
    · rw [if_pos (by simp [hc])]
      exact ⟨mem_rolesOf_addRole _ u MUTE_ROLE_ID, rfl⟩

/-- Counterexample for C2 as stated: with the staff channel unavailable after a
successful mute, the final state has actor 7 muted and no ReviewRecord — the
engine neither retried persistence nor rolled the mute back. -/
theorem C2_counterexample_mute_without_record :
    MUTE_ROLE_ID ∈ rolesOf (handleSpam envNoStaff emptyState 7 1 dSame 100) 7 ∧
    (handleSpam envNoStaff emptyState 7 1 dSame 100).spamActions = [] ∧
    (handleSpam envNoStaff emptyState 7 1 dSame 100).muteCalls = 1 := by
  exact ⟨by decide, by decide, by decide⟩

/-- Witness for C2's amended theorem at a concrete input. -/
theorem C2_witness :
    (MUTE_ROLE_ID ∈ envNoStaff.guildRoles ∧ envNoStaff.addRolesOk = true ∧
      envNoStaff.staffChannelExists = false) ∧
    MUTE_ROLE_ID ∈ rolesOf (handleSpam envNoStaff emptyState 7 1 dSame 100) 7 ∧
    (handleSpam envNoStaff emptyState 7 1 dSame 100).spamActions = emptyState.spamActions :=
  ⟨⟨by decide, by decide, by decide⟩,
    (C2_failure_leaves_mute_without_record envNoStaff emptyState 7 1 dSame 100
      (by decide) (by decide) (Or.inl (by decide))).1,
    (C2_failure_leaves_mute_without_record envNoStaff emptyState 7 1 dSame 100
      (by decide) (by decide) (Or.inl (by decide))).2⟩

/-- Claim C4 (amended): only the Remove Mute button observes a no-longer-active
state ("user is not currently muted") and leaves everything unchanged; Keep
Mute performs no already-resolved check and always rewrites a 1-day `mutes` row
and reports success, even after another resolution already completed. -/
theorem C4_only_remove_mute_checks_state :
    (∀ (env : Env) (st : BotState) (memberId guildId alertId : Int),
        MUTE_ROLE_ID ∉ rolesOf st memberId →
        removeMuteButton env st memberId guildId alertId true true = (st, ActionOutcome.notMuted))
    ∧ (∀ (st : BotState) (memberId guildId alertId now : Int),
        (keepMuteButton st memberId guildId alertId now true true).2 = ActionOutcome.muteKept ∧
        (keepMuteButton st memberId guildId alertId now true true).1.mutes
          = upsertMute st.mutes ⟨memberId, guildId, STAFF_CHANNEL_ID, now + 86400⟩) := by
  constructor
  · intro env st memberId guildId alertId h
    unfold removeMuteButton
    rw [if_neg (by simp), if_neg (by simp), if_neg (fun hc => h hc.2)]
  · intro st memberId guildId alertId now
    constructor
    · rfl
    · rfl

/-- Counterexample for C4 as stated: after Remove Mute resolved the record
(role removed, `mutes` cleared, pending row deleted), a subsequent Keep Mute
does not observe "already resolved": it reports success and re-inserts a 1-day
`mutes` row, mutating the MuteRecord again. -/
theorem C4_counterexample_keep_after_lift :
    (removeMuteButton envAllOk c4State 7 1 1 true true).2 = ActionOutcome.muteRemoved ∧
    c4AfterLift.mutes = [] ∧
    c4AfterLift.spamActions = [] ∧
    (keepMuteButton c4AfterLift 7 1 1 200 true true).2 = ActionOutcome.muteKept ∧
    (keepMuteButton c4AfterLift 7 1 1 200 true true).1.mutes
      = [⟨7, 1, STAFF_CHANNEL_ID, 86600⟩] := by
  exact ⟨by decide, by decide, by decide, by decide, by decide⟩

/-- Witness for C4's amended theorem at a concrete input (the post-lift state). -/
theorem C4_witness :
    (MUTE_ROLE_ID ∉ rolesOf c4AfterLift 7) ∧
    removeMuteButton envAllOk c4AfterLift 7 1 1 true true = (c4AfterLift, ActionOutcome.notMuted) ∧
    (keepMuteButton c4AfterLift 7 1 1 200 true true).2 = ActionOutcome.muteKept ∧
    (keepMuteButton c4AfterLift 7 1 1 200 true true).1.mutes
      = upsertMute c4AfterLift.mutes ⟨7, 1, STAFF_CHANNEL_ID, 200 + 86400⟩ :=
  ⟨by decide, C4_only_remove_mute_checks_state.1 envAllOk c4AfterLift 7 1 1 (by decide),
    (C4_only_remove_mute_checks_state.2 c4AfterLift 7 1 1 200).1,
    (C4_only_remove_mute_checks_state.2 c4AfterLift 7 1 1 200).2⟩

theorem dropWhile_old_eq_filter (c : Int) (l : List ActivityRecord)
    (hs : l.Pairwise (fun a b => a.timestamp ≤ b.timestamp)) :
    l.dropWhile (fun r => decide (r.timestamp < c))
      = l.filter (fun r => decide (c ≤ r.timestamp)) := by
  induction l with
  | nil => rfl
  | cons a t ih =>
      rw [List.pairwise_cons] at hs
      rw [List.dropWhile_cons, List.filter_cons]
      by_cases ha : a.timestamp < c
      · rw [if_pos (by simpa using ha), if_neg (by simp; omega)]
        exact ih hs.2
      · rw [if_neg (by simpa using ha), if_pos (by simp; omega)]
        congr 1
        symm
        apply List.filter_eq_self.mpr
        intro b hb
        have hab := hs.1 b hb
        simp only [decide_eq_true_eq]
        omega

theorem alookup_eq_none_of_not_mem {β : Type} (l : List (Int × β)) (u : Int)
    (h : u ∉ l.map Prod.fst) : alookup l u = none := by
  induction l with
  | nil => rfl
  | cons p rest ih =>
      obtain ⟨k, v⟩ := p
      simp only [List.map_cons, List.mem_cons] at h
      push_neg at h
      simp only [alookup]
      rw [if_neg (fun hk => h.1 hk.symm)]
      exact ih h.2

theorem mem_of_alookup {β : Type} :
    ∀ (l : List (Int × β)) (u : Int) (v : β), alookup l u = some v → (u, v) ∈ l := by
  intro l
  induction l with
  | nil =>
      intro u v h
      simp [alookup] at h
  | cons p rest ih =>
      intro u v h
      obtain ⟨k, w⟩ := p
      simp only [alookup] at h
      by_cases hk : k = u
      · subst hk
        rw [if_pos rfl] at h
        have hw : w = v := by injection h
        subst hw
        exact List.mem_cons_self _ _
      · rw [if_neg hk] at h
        exact List.mem_cons_of_mem _ (ih u v h)

theorem keys_map_filter_subset (f : List ActivityRecord → List ActivityRecord)
    (rest : List (Int × List ActivityRecord)) (k : Int)
    (h : k ∈ ((rest.map (fun p => (p.1, f p.2))).filter (fun p => ¬ p.2.isEmpty)).map Prod.fst) :
    k ∈ rest.map Prod.fst := by
  obtain ⟨q, hq, hqk⟩ := List.mem_map.mp h
  have hq2 := (List.mem_filter.mp hq).1
  obtain ⟨q0, hq0, hq0e⟩ := List.mem_map.mp hq2
  refine List.mem_map.mpr ⟨q0, hq0, ?_⟩
  rw [← hqk, ← hq0e]

theorem alookup_map_filter (f : List ActivityRecord → List ActivityRecord)
    (u : Int) (l : List (Int × List ActivityRecord))
    (hnd : (l.map Prod.fst).Nodup) :
    alookup ((l.map (fun p => (p.1, f p.2))).filter (fun p => ¬ p.2.isEmpty)) u
      = (match alookup l u with
         | none => none
         | some v => if (f v).isEmpty then none else some (f v)) := by
  induction l with
  | nil => rfl
  | cons p rest ih =>
      obtain ⟨k, v⟩ := p
      simp only [List.map_cons, List.nodup_cons] at hnd
      rw [List.map_cons, List.filter_cons]
      by_cases he : (f v).isEmpty
      · rw [if_neg (by simp [he])]
        by_cases hk : k = u
        · subst hk
          have hnone : alookup
              ((rest.map (fun p => (p.1, f p.2))).filter (fun p => ¬ p.2.isEmpty)) k = none := by
            apply alookup_eq_none_of_not_mem
            intro hmem
            exact hnd.1 (keys_map_filter_subset f rest k hmem)
          rw [hnone]
          simp [alookup, he]
        · rw [ih hnd.2]
          simp [alookup, hk]
      · rw [if_pos (by simp [he])]
        by_cases hk : k = u
        · subst hk
          simp [alookup, he]
        · simp only [alookup]
          rw [if_neg hk, if_neg hk]
          exact ih hnd.2

/-- Claim C8 (amended): the periodic sweep removes from a (timestamp-sorted,
key-unique) tracking map exactly the entries older than 10 seconds — the code's
cutoff, not the 5-second detection window — deletes an actor's log once empty,
and after a sweep that evicts all of an actor's records their log is gone and
any later `recent` window over it is empty. -/
theorem C8_sweep_evicts_entries_older_than_ten_seconds (now : Int) (st : BotState) (u : Int)
    (hnd : (st.userMessages.map Prod.fst).Nodup)
    (hsorted : ∀ p ∈ st.userMessages, p.2.Pairwise (fun a b => a.timestamp ≤ b.timestamp)) :
    logOf (cleanupTracking now st) u
        = (logOf st u).filter (fun r => decide (now - 10 ≤ r.timestamp)) ∧
    ((∀ r ∈ logOf st u, r.timestamp < now - 10) →
      alookup (cleanupTracking now st).userMessages u = none ∧
      ∀ now2 : Int, recentWindow (logOf (cleanupTracking now st) u) now2 = []) := by
  have hmf : alookup (cleanupTracking now st).userMessages u
      = (match alookup st.userMessages u with
         | none => none
         | some v =>
             if (v.dropWhile (fun r => decide (r.timestamp < now - 10))).isEmpty then none
             else some (v.dropWhile (fun r => decide (r.timestamp < now - 10)))) :=
    alookup_map_filter (fun v => v.dropWhile (fun r => decide (r.timestamp < now - 10))) u
      st.userMessages hnd
  cases hv : alookup st.userMessages u with
  | none =>
      have hlog : logOf st u = [] := by simp [logOf, hv]
      have hnone : alookup (cleanupTracking now st).userMessages u = none := by
        rw [hmf, hv]
      refine ⟨by simp [logOf, hnone, hv], fun _ => ⟨hnone, fun now2 => ?_⟩⟩
      simp [logOf, hnone, recentWindow]
  | some v =>
      have hmem := mem_of_alookup st.userMessages u v hv
      have hsv := hsorted (u, v) hmem
      have hdw : v.dropWhile (fun r => decide (r.timestamp < now - 10))
          = v.filter (fun r => decide (now - 10 ≤ r.timestamp)) :=
        dropWhile_old_eq_filter (now - 10) v hsv
      have hlog : logOf st u = v := by simp [logOf, hv]
      have hclean : alookup (cleanupTracking now st).userMessages u
          = (if (v.dropWhile (fun r => decide (r.timestamp < now - 10))).isEmpty then none
             else some (v.dropWhile (fun r => decide (r.timestamp < now - 10)))) := by
        rw [hmf, hv]
      have hpart1 : logOf (cleanupTracking now st) u
          = (logOf st u).filter (fun r => decide (now - 10 ≤ r.timestamp)) := by
        rw [hlog]
        unfold logOf
        rw [hclean]
        by_cases he : (v.dropWhile (fun r => decide (r.timestamp < now - 10))).isEmpty
        · rw [if_pos he]
          have hf0 : v.filter (fun r => decide (now - 10 ≤ r.timestamp)) = [] := by
            rw [← hdw]
            exact List.isEmpty_iff.mp he
          rw [hf0]
          rfl
        · rw [if_neg he, hdw]
          rfl
      refine ⟨hpart1, fun hall => ?_⟩
      have hf0 : v.filter (fun r => decide (now - 10 ≤ r.timestamp)) = [] := by
        rw [List.filter_eq_nil_iff]
        intro r hr
        have hrv := hall r (by rw [hlog]; exact hr)
        simp only [decide_eq_true_eq]
        omega
      have he : (v.dropWhile (fun r => decide (r.timestamp < now - 10))).isEmpty = true := by
        rw [hdw, hf0]
        rfl
      constructor
      · rw [hclean, if_pos he]
      · intro now2
        rw [hpart1, hlog, hf0]
        rfl

/-- Counterexample for C8 as stated: at time 100, the entry with timestamp 93 is
older than the 5-second detection window, yet the sweep keeps it — the code's
cutoff is 10 seconds. -/
theorem C8_counterexample_five_second_old_entry_survives :
    ((93 : Int) < 100 - 5) ∧
    (cleanupTracking 100 c8State).userMessages = c8State.userMessages ∧
    logOf (cleanupTracking 100 c8State) 7 = [⟨93, 1, ""⟩] := by
  exact ⟨by decide, by decide, by decide⟩

/-- Witness for C8's amended theorem at a concrete input: at time 200 the whole
log of actor 7 is older than 10 seconds, so it is removed and `recent` is
empty afterwards. -/
theorem C8_witness :
    ((c8State.userMessages.map Prod.fst).Nodup) ∧
    (∀ p ∈ c8State.userMessages, p.2.Pairwise (fun a b => a.timestamp ≤ b.timestamp)) ∧
    (∀ r ∈ logOf c8State 7, r.timestamp < 200 - 10) ∧
    logOf (cleanupTracking 200 c8State) 7
      = (logOf c8State 7).filter (fun r => decide (200 - 10 ≤ r.timestamp)) ∧
    alookup (cleanupTracking 200 c8State).userMessages 7 = none ∧
    recentWindow (logOf (cleanupTracking 200 c8State) 7) 300 = [] :=
  ⟨by decide, by decide, by decide,
    (C8_sweep_evicts_entries_older_than_ten_seconds 200 c8State 7 (by decide) (by decide)).1,
    ((C8_sweep_evicts_entries_older_than_ten_seconds 200 c8State 7 (by decide) (by decide)).2
      (by decide)).1,
    ((C8_sweep_evicts_entries_older_than_ten_seconds 200 c8State 7 (by decide) (by decide)).2
      (by decide)).2 300⟩

theorem drainAll_empty (env : Env) (st : BotState) (hq : st.queue = []) :
    drainAll env st = st := by
  unfold drainAll
  rw [hq]
  rfl

theorem drainAll_single (env : Env) (st : BotState) (m : Msg) (h : st.queue = [m]) :
    drainAll env st = processMessage env { st with queue := [] } m := by
  unfold drainAll
  rw [h]
  simp only [List.length_singleton]
  simp only [drainN]
  rw [h]

theorem onMessage_cases (env : Env) (st : BotState) (m : Msg) :
    onMessage env st m = st ∨
    (m.authorId ∉ st.flagged ∧ onMessage env st m = { st with queue := st.queue ++ [m] }) := by
  unfold onMessage
  split_ifs with h1 h2 h3 h4 h5
  · exact Or.inl rfl
  · exact Or.inl rfl
  · exact Or.inl rfl
  · exact Or.inl rfl
  · exact Or.inl rfl
  · exact Or.inr ⟨h5, rfl⟩

theorem handleSpam_success_components (env : Env) (st : BotState) (v g : Int) (d : SpamData)
    (now : Int)
    (hrole : MUTE_ROLE_ID ∈ env.guildRoles) (hadd : env.addRolesOk = true)
    (hstaff : env.staffChannelExists = true) (hsend : env.staffSendOk = true)
    (hpersist : env.persistOk = true) :
    (handleSpam env st v g d now).spamActions
        = st.spamActions ++ [⟨st.nextMessageId, v, g, now, now + 43200, spamKind d⟩] ∧
    (handleSpam env st v g d now).flagged
        = (if v ∈ st.flagged then st.flagged else st.flagged ++ [v]) ∧
    (handleSpam env st v g d now).queue = st.queue := by
  simp only [handleSpam]
  rw [if_neg (by simpa using hrole), if_neg (by simp [hadd]), if_neg (by simp [hstaff]),
    if_neg (by simp [hsend]), if_neg (by simp [hpersist])]
  exact ⟨rfl, rfl, rfl⟩

theorem seqInv_handleSpam (env : Env) (u v g : Int) (d : SpamData) (now : Int) (st : BotState)
    (hrole : MUTE_ROLE_ID ∈ env.guildRoles) (hadd : env.addRolesOk = true)
    (hstaff : env.staffChannelExists = true) (hsend : env.staffSendOk = true)
    (hpersist : env.persistOk = true)
    (hq : st.queue = []) (hiff : u ∈ st.flagged ↔ actionsFor st u ≠ [])
    (hlen : (actionsFor st u).length ≤ 1) (hv : v = u → u ∉ st.flagged) :
    SeqInv (handleSpam env st v g d now) u := by
  obtain ⟨hact, hfl, hqe⟩ :=
    handleSpam_success_components env st v g d now hrole hadd hstaff hsend hpersist
  have hactFor : actionsFor (handleSpam env st v g d now) u
      = actionsFor st u ++
        (if v = u then [⟨st.nextMessageId, v, g, now, now + 43200, spamKind d⟩] else []) := by
    unfold actionsFor
    rw [hact, List.filter_append]
    congr 1
    by_cases hvu : v = u
    · subst hvu
      simp
    · simp [hvu]
  by_cases hvu : v = u
  · subst hvu
    have hnf : v ∉ st.flagged := hv rfl
    have h0 : actionsFor st v = [] := by
      by_contra hne
      exact hnf (hiff.mpr hne)
    rw [if_neg hnf] at hfl
    refine ⟨by rw [hqe, hq], ?_, ?_⟩
    · rw [hfl, hactFor, h0]
      simp
    · rw [hactFor, h0]
      simp
  · have hmem : u ∈ (handleSpam env st v g d now).flagged ↔ u ∈ st.flagged := by
      rw [hfl]
      split_ifs
      · exact Iff.rfl
      · have huv : ¬ u = v := fun h => hvu h.symm
        simp [List.mem_append, huv]
    refine ⟨by rw [hqe, hq], ?_, ?_⟩
    · rw [hmem, hactFor, if_neg hvu, List.append_nil]
      exact hiff
    · rw [hactFor, if_neg hvu, List.append_nil]
      exact hlen

theorem seqInv_processMessage (env : Env) (u : Int) (st : BotState) (m : Msg)
    (hrole : MUTE_ROLE_ID ∈ env.guildRoles) (hadd : env.addRolesOk = true)
    (hstaff : env.staffChannelExists = true) (hsend : env.staffSendOk = true)
    (hpersist : env.persistOk = true)
    (hq : st.queue = []) (hiff : u ∈ st.flagged ↔ actionsFor st u ≠ [])
    (hlen : (actionsFor st u).length ≤ 1) (hm : m.authorId = u → u ∉ st.flagged) :
    SeqInv (processMessage env st m) u := by
  simp only [processMessage]
  cases hd : checkSpamPatterns
      (recordAppend (logOf st m.authorId) ⟨m.timestamp, m.channelId, m.content.take 100⟩)
      m.timestamp with
  | none => exact ⟨hq, hiff, hlen⟩
  | some d =>
      refine seqInv_handleSpam env u m.authorId m.guildId d m.timestamp _
        hrole hadd hstaff hsend hpersist ?_ ?_ ?_ ?_
      · exact hq
      · exact hiff
      · exact hlen
      · exact hm

theorem seqInv_step (env : Env) (u : Int) (st : BotState) (m : Msg)
    (hrole : MUTE_ROLE_ID ∈ env.guildRoles) (hadd : env.addRolesOk = true)
    (hstaff : env.staffChannelExists = true) (hsend : env.staffSendOk = true)
    (hpersist : env.persistOk = true) (hinv : SeqInv st u) :
    SeqInv (drainAll env (onMessage env st m)) u := by
  obtain ⟨hq, hiff, hlen⟩ := hinv
  rcases onMessage_cases env st m with h | ⟨hnf, h⟩
  · rw [h, drainAll_empty env st hq]
    exact ⟨hq, hiff, hlen⟩
  · rw [h]
    have hq1 : ({ st with queue := st.queue ++ [m] } : BotState).queue = [m] := by
      simp [hq]
    rw [drainAll_single env _ m hq1]
    exact seqInv_processMessage env u { st with queue := [] } m
      hrole hadd hstaff hsend hpersist rfl hiff hlen (fun h => h ▸ hnf)

/-- Claim C3 (amended): the FlaggedActorSet check lives in `on_message` (the
ingest path), not in `handle_spam` (the creation path).  Under the sequential
schedule — each message fully processed before the next is ingested — an actor
therefore never accumulates more than one pending ReviewRecord: a second trigger
arriving after the first escalation is dropped at ingest.  (Messages already
queued before the flag is set evade this check; see the counterexample.) -/
theorem C3_sequential_single_escalation (env : Env) (u : Int)
    (hrole : MUTE_ROLE_ID ∈ env.guildRoles) (hadd : env.addRolesOk = true)
    (hstaff : env.staffChannelExists = true) (hsend : env.staffSendOk = true)
    (hpersist : env.persistOk = true) :
    ∀ (ms : List Msg) (st : BotState), SeqInv st u →
      SeqInv (runSequential env st ms) u ∧
      (actionsFor (runSequential env st ms) u).length ≤ 1 := by
  intro ms
  induction ms with
  | nil =>
      intro st hinv
      exact ⟨hinv, hinv.2.2⟩
  | cons m rest ih =>
      intro st hinv
      have hstep := seqInv_step env u st m hrole hadd hstaff hsend hpersist hinv
      have hr : runSequential env st (m :: rest)
          = runSequential env (drainAll env (onMessage env st m)) rest := by
        simp [runSequential]
      rw [hr]
      exact ih _ hstep

/-- Counterexample for C3 as stated: eleven identical burst messages all pass
the `on_message` flagged-set check before any is processed (the check happens at
ingest, not in the escalation path), so draining the queue escalates twice: two
`spam_actions` rows are persisted for actor 7 and the containment call runs
twice. -/
theorem C3_counterexample_queued_double_escalation :
    c3Run.spamActions.length = 2 ∧
    (actionsFor c3Run 7).length = 2 ∧
    c3Run.muteCalls = 2 ∧
    c3Run.flagged = [7] := by
  exact ⟨by decide, by decide, by decide, by decide⟩

/-- Witness for C3's amended theorem: the same eleven burst messages delivered
sequentially produce exactly one pending ReviewRecord. -/
theorem C3_witness :
    (MUTE_ROLE_ID ∈ envAllOk.guildRoles ∧ SeqInv emptyState 7) ∧
    (SeqInv (runSequential envAllOk emptyState (List.replicate 11 mSpam)) 7 ∧
      (actionsFor (runSequential envAllOk emptyState (List.replicate 11 mSpam)) 7).length ≤ 1) ∧
    (actionsFor (runSequential envAllOk emptyState (List.replicate 11 mSpam)) 7).length = 1 :=
  ⟨⟨by decide, rfl, by decide, by decide⟩,
    C3_sequential_single_escalation envAllOk 7 (by decide) (by decide) (by decide) (by decide)
      (by decide) (List.replicate 11 mSpam) emptyState ⟨rfl, by decide, by decide⟩,
    by decide⟩

end SpamGuard
